import Mathlib

/-!
Verification of the nzwl tower-defense automation engine.

Shallow embedding of the perception layer (src/ocr.rs, src/monitor.rs),
the strategy data model (src/strategy.rs), the input layer
(src/input.rs, src/keys.rs) and the strategy executor
(src/strategy_executor.rs).  Machine integers (u32, i32, i64) are
embedded as Nat / Int with explicit range bounds where the source type
forces one; f32 / f64 values that only flow through comparisons and
serialization are embedded as Rat.
-/

namespace Nzwl

/-! ### OCR result items (src/ocr.rs, OcrResultItem) -/

/-- One recognized text span.  Mirrors OcrResultItem in src/ocr.rs:
text, four box corner points (box_points[0] .. box_points[3], each an
(x, y) pair of i32), and a confidence score (f32, embedded as Rat;
no claim computes with it). -/
structure OcrResultItem where
  text : String
  box_points : (Int × Int) × (Int × Int) × (Int × Int) × (Int × Int)
  score : Rat
deriving DecidableEq

/-- Center of the text box: midpoint of the diagonal between corner 0
and corner 2, with i32 division (truncation toward zero, Int.div). -/
def OcrResultItem.center (r : OcrResultItem) : Int × Int :=
  (Int.tdiv (r.box_points.1.1 + r.box_points.2.2.1.1) 2,
   Int.tdiv (r.box_points.1.2 + r.box_points.2.2.1.2) 2)

/-- find_text_contains from src/ocr.rs: first OCR item whose text
contains the target as a substring (Rust str::contains; byte substring
coincides with character-list infix for UTF-8). -/
def find_text_contains (results : List OcrResultItem) (target : String) :
    Option OcrResultItem :=
  results.find? (fun r => decide (target.data <:+: r.text.data))

/-! ### Frame-difference cache (src/ocr.rs, FrameCache / ocr_image) -/

/-- One (hash, result list) pair; the process-wide cache holds at most
one.  Mirrors struct FrameCache in src/ocr.rs. -/
structure FrameCache where
  hash : Option Nat
  result : Option (List OcrResultItem)

/-- should_skip_frame from src/ocr.rs: a hit requires the stored hash
to equal the incoming hash of the frame AND a stored result to exist.
The image type and the downsampled hash function are parameters of the
embedding. -/
def should_skip_frame {Img : Type} (computeHash : Img → Nat) (img : Img)
    (cache : FrameCache) : Bool :=
  match cache.hash with
  | some prev => prev == computeHash img && cache.result.isSome
  | none => false

/-- get_cached_result from src/ocr.rs. -/
def get_cached_result (cache : FrameCache) : Option (List OcrResultItem) :=
  cache.result

/-- update_frame_cache from src/ocr.rs: stores the hash of the frame
and a copy of the result list, replacing whatever was cached. -/
def update_frame_cache {Img : Type} (computeHash : Img → Nat) (img : Img)
    (result : List OcrResultItem) : FrameCache :=
  { hash := some (computeHash img), result := some result }

/-- Outcome of one ocr_image call: the returned list, the cache state
after the call, and whether the underlying OCR model was invoked. -/
structure OcrCallResult where
  result : List OcrResultItem
  cache : FrameCache
  invoked : Bool

/-- ocr_image from src/ocr.rs, with the engine as an explicit oracle
(engine errors and the engine mutex are outside the claims).  On a
frame-skip hit the cached result is returned without invoking the
engine; otherwise the engine runs once and, when use_frame_skip is
set, the cache is refreshed with the new pair. -/
def ocr_image {Img : Type} (computeHash : Img → Nat)
    (engine : Img → List OcrResultItem) (img : Img)
    (use_frame_skip : Bool) (cache : FrameCache) : OcrCallResult :=
  if use_frame_skip && should_skip_frame computeHash img cache then
    { result := (get_cached_result cache).getD [], cache := cache, invoked := false }
  else
    let results := engine img
    let cache' := if use_frame_skip then update_frame_cache computeHash img results
                  else cache
    { result := results, cache := cache', invoked := true }

/-! ### Numeric parsing (src/monitor.rs) -/

/-- Numeric value of an ASCII digit character. -/
def digit_value (c : Char) : Nat := c.toNat - 48

/-- i64::MAX. -/
def i64_max : Nat := 9223372036854775807

/-- u32::MAX. -/
def u32_max : Nat := 4294967295

/-- One digit of Rust str::parse accumulation for an unsigned target
type with maximum value maxVal: checked multiply-add, None once the
target type would overflow. -/
def parse_digit_step (maxVal : Nat) (acc : Option Nat) (c : Char) : Option Nat :=
  match acc with
  | none => none
  | some v =>
    let v' := v * 10 + digit_value c
    if v' ≤ maxVal then some v' else none

/-- Rust str::parse for an unsigned integer type with maximum value
maxVal, applied to an all-digit string: empty input fails, and the
value is accumulated digit by digit with a checked multiply-add, so
any overflow of the target type yields None. -/
def parse_digits_bounded (maxVal : Nat) (l : List Char) : Option Nat :=
  if l.isEmpty then none
  else l.foldl (parse_digit_step maxVal) (some 0)

/-- Unchecked value of a digit string (specification-side reference
for the parse functions). -/
def nat_of_digits (l : List Char) : Nat :=
  l.foldl (fun acc c => acc * 10 + digit_value c) 0

/-- parse_wave_number from src/monitor.rs: keep only ASCII digits; if
none remain return None, else parse the digit string as a u32. -/
def parse_wave_number (text : String) : Option Nat :=
  let num_str := text.data.filter Char.isDigit
  if num_str.isEmpty then none
  else parse_digits_bounded u32_max num_str

/-- parse_gold from src/monitor.rs: keep only ASCII digits; if none
remain return None, else parse the digit string as an i64. -/
def parse_gold (text : String) : Option Int :=
  let num_str := text.data.filter Char.isDigit
  if num_str.isEmpty then none
  else (parse_digits_bounded i64_max num_str).map Int.ofNat

/-- Handling of one OCR result inside wave_monitor_loop
(src/monitor.rs lines 124-131): if the text parses to a wave number
that is non-zero and differs from the currently published value,
publish it; otherwise keep the published value. -/
def wave_store_step (old_wave : Nat) (r : OcrResultItem) : Nat :=
  match parse_wave_number r.text with
  | some wave => if wave ≠ old_wave ∧ 0 < wave then wave else old_wave
  | none => old_wave

/-- One pass of the body of wave_monitor_loop in src/monitor.rs over
the OCR results of a capture, threading the published wave value
through each result in order. -/
def wave_monitor_step (results : List OcrResultItem) (cur : Nat) : Nat :=
  results.foldl wave_store_step cur

/-! ### Strategy data model (src/strategy.rs) -/

/-- StrategyMeta from src/strategy.rs.  screenshot, grid_pixel_size,
offset_x and offset_y are serde(default) fields; grid_pixel_size
defaults to 64.0, the offsets to 0.0, screenshot to the empty
string. -/
structure StrategyMeta where
  name : String
  difficulty : String
  screenshot : String
  grid_pixel_size : Rat
  offset_x : Rat
  offset_y : Rat
deriving DecidableEq

/-- Building from src/strategy.rs.  wave is a u32, the screen
coordinates are i32, the grid coordinates f32 (display only). -/
structure Building where
  id : String
  name : String
  trap_key : String
  screen_x : Int
  screen_y : Int
  grid_x : Rat
  grid_y : Rat
  wave : Nat
  is_late : Bool
deriving DecidableEq

/-- Building::sort_key from src/strategy.rs: wave * 2 + is_late,
computed in u32.  For wave at least 2^31 the u32 multiplication wraps
in release builds (and panics in debug builds), so the key is the
expression reduced modulo 2^32. -/
def Building.sort_key (b : Building) : Nat :=
  (b.wave * 2 + (if b.is_late then 1 else 0)) % 4294967296

/-- UpgradeEvent from src/strategy.rs. -/
structure UpgradeEvent where
  building_id : String
  wave : Nat
  is_late : Bool
deriving DecidableEq

/-- DemolishEvent from src/strategy.rs. -/
structure DemolishEvent where
  building_id : String
  wave : Nat
  is_late : Bool
deriving DecidableEq

/-- ActionStep from src/strategy.rs (serde tag "type"). -/
inductive ActionStep where
  | PressKey (key : String) (duration : Rat)
  | TapKey (key : String)
  | KeyDown (key : String)
  | KeyUp (key : String)
  | SendRelative (dx dy : Int)
  | Sleep (duration : Rat)
  | Click
  | MoveTo (x y : Int)
  | ClickAt (x y : Int)
deriving DecidableEq

/-- MovementPhase from src/strategy.rs. -/
structure MovementPhase where
  name : String
  trigger : String
  actions : List ActionStep
deriving DecidableEq

/-- Strategy from src/strategy.rs.  upgrades, demolishes and
movement_phases are serde(default) fields defaulting to empty
lists. -/
structure Strategy where
  meta : StrategyMeta
  shop_order : List String
  buildings : List Building
  upgrades : List UpgradeEvent
  demolishes : List DemolishEvent
  movement_phases : List MovementPhase
deriving DecidableEq

/-- The executor sorts buildings by sort_key with a stable sort
(Rust Vec::sort_by_key, src/strategy_executor.rs line 198).  Any two
stable sorts by the same key agree, so the embedding uses stable
insertion sort. -/
def sortBuildings (bs : List Building) : List Building :=
  List.insertionSort (fun a b => a.sort_key ≤ b.sort_key) bs

/-- The condition checked after the placement loop in run_strategy
(src/strategy_executor.rs lines 280-284): the wave-start key G is
tapped exactly when some building is wave 1 and not late, and no
building at all is late. -/
def wave_start_after_placement (buildings : List Building) : Bool :=
  (buildings.any fun b => b.wave == 1 && !b.is_late) &&
    !(buildings.any fun b => b.is_late)

/-- run_strategy applies the post-placement wave-start check to the
sorted building list. -/
def run_strategy_wave_start (s : Strategy) : Bool :=
  wave_start_after_placement (sortBuildings s.buildings)

/-! ### Key state and key sequences (src/input.rs, src/keys.rs) -/

/-- Observable keyboard state: for each virtual-key code, whether the
key is currently down. -/
def KeyState : Type := Nat → Bool

/-- key_down from src/input.rs: the key goes down, others keep their
state. -/
def key_down (s : KeyState) (vk : Nat) : KeyState :=
  fun k => if k = vk then true else s k

/-- key_up from src/input.rs: the key goes up, others keep their
state. -/
def key_up (s : KeyState) (vk : Nat) : KeyState :=
  fun k => if k = vk then false else s k

/-- tap_key from src/input.rs: key down, short delay, key up. -/
def tap_key (s : KeyState) (vk : Nat) : KeyState :=
  key_up (key_down s vk) vk

/-- n successive taps of the same key. -/
def tap_key_times (s : KeyState) (vk : Nat) : Nat → KeyState
  | 0 => s
  | n + 1 => tap_key_times (tap_key s vk) vk n

/-- KeyAction from src/keys.rs: Hold(vk, duration) with duration 0
meaning hold indefinitely, Tap(vk, count), Release(vk).  The f64
duration is embedded as Rat. -/
inductive KeyAction where
  | Hold (vk : Nat) (duration : Rat)
  | Tap (vk : Nat) (count : Nat)
  | Release (vk : Nat)
deriving DecidableEq

/-- Effect of one KeyAction in press_key_sequence (src/input.rs lines
238-268): the pair carries the key state and the held_keys list of
indefinitely held keys.  Hold with duration 0 presses the key and
records it; Hold with a duration presses and releases it; Tap taps it
max(count, 1) times; Release lifts the key and removes every record of
it from held_keys. -/
def key_action_step : KeyState × List Nat → KeyAction → KeyState × List Nat
  | (s, held), .Hold vk duration =>
    if duration = 0 then (key_down s vk, held ++ [vk])
    else (key_up (key_down s vk) vk, held)
  | (s, held), .Tap vk count => (tap_key_times s vk (max count 1), held)
  | (s, held), .Release vk => (key_up s vk, held.filter (fun k => k ≠ vk))

/-- press_key_sequence from src/input.rs: run the actions in order,
then release every key still recorded in held_keys. -/
def press_key_sequence (actions : List KeyAction) (s : KeyState) : KeyState :=
  let fs := actions.foldl key_action_step (s, [])
  fs.2.foldl key_up fs.1

/-! ### Action steps as event traces (src/strategy_executor.rs) -/

/-- Primitive input effects issued by the executor, in order.  Sleeps
are recorded in milliseconds (Rat, since durations come from f64
seconds). -/
inductive Event where
  | keyDownE (vk : Nat)
  | keyUpE (vk : Nat)
  | moveToE (x y : Int)
  | leftClickE
  | sendRelativeE (dx dy : Int)
  | sleepE (ms : Rat)
deriving DecidableEq

/-- Uppercase of a key name (Rust key.to_uppercase(); the key table
only holds ASCII names, for which character-wise ASCII uppercase
agrees with Rust), stated over the character list so that the kernel
can evaluate it. -/
def ascii_upper (s : String) : String := ⟨s.data.map Char.toUpper⟩

/-- get_vk_code from src/keys.rs: uppercase the key name and map it to
a virtual-key code; None for unknown names. -/
def get_vk_code (key : String) : Option Nat :=
  match ascii_upper key with
  | "A" => some 0x41 | "B" => some 0x42 | "C" => some 0x43 | "D" => some 0x44
  | "E" => some 0x45 | "F" => some 0x46 | "G" => some 0x47 | "H" => some 0x48
  | "I" => some 0x49 | "J" => some 0x4A | "K" => some 0x4B | "L" => some 0x4C
  | "M" => some 0x4D | "N" => some 0x4E | "O" => some 0x4F | "P" => some 0x50
  | "Q" => some 0x51 | "R" => some 0x52 | "S" => some 0x53 | "T" => some 0x54
  | "U" => some 0x55 | "V" => some 0x56 | "W" => some 0x57 | "X" => some 0x58
  | "Y" => some 0x59 | "Z" => some 0x5A
  | "0" => some 0x30 | "1" => some 0x31 | "2" => some 0x32 | "3" => some 0x33
  | "4" => some 0x34 | "5" => some 0x35 | "6" => some 0x36 | "7" => some 0x37
  | "8" => some 0x38 | "9" => some 0x39
  | "SPACE" => some 0x20 | "ENTER" => some 0x0D | "ESC" => some 0x1B
  | "TAB" => some 0x09 | "SHIFT" => some 0x10 | "CTRL" => some 0x11
  | "ALT" => some 0x12
  | "F1" => some 0x70 | "F2" => some 0x71 | "F3" => some 0x72 | "F4" => some 0x73
  | "F5" => some 0x74 | "F6" => some 0x75 | "F7" => some 0x76 | "F8" => some 0x77
  | "F9" => some 0x78 | "F10" => some 0x79 | "F11" => some 0x7A | "F12" => some 0x7B
  | _ => none

/-- resolve_key from src/strategy_executor.rs: get_vk_code, or an
error naming the unknown key. -/
def resolve_key (key : String) : Except String Nat :=
  match get_vk_code key with
  | some vk => Except.ok vk
  | none => Except.error ("unknown key: " ++ key)

/-- execute_step from src/strategy_executor.rs, as the event trace it
issues.  Every failure point (resolve_key) precedes all effects of the
step, so a failing step issues no events.  tap_key sleeps 50ms between
down and up; click_at moves, sleeps 100ms, then clicks. -/
def execute_step (step : ActionStep) : Except String (List Event) :=
  match step with
  | .PressKey key duration =>
    match resolve_key key with
    | .ok vk => .ok [.keyDownE vk, .sleepE (duration * 1000), .keyUpE vk]
    | .error e => .error e
  | .TapKey key =>
    match resolve_key key with
    | .ok vk => .ok [.keyDownE vk, .sleepE 50, .keyUpE vk]
    | .error e => .error e
  | .KeyDown key =>
    match resolve_key key with
    | .ok vk => .ok [.keyDownE vk]
    | .error e => .error e
  | .KeyUp key =>
    match resolve_key key with
    | .ok vk => .ok [.keyUpE vk]
    | .error e => .error e
  | .SendRelative dx dy => .ok [.sendRelativeE dx dy]
  | .Sleep duration => .ok [.sleepE (duration * 1000)]
  | .Click => .ok [.leftClickE]
  | .MoveTo x y => .ok [.moveToE x y]
  | .ClickAt x y => .ok [.moveToE x y, .sleepE 100, .leftClickE]

/-- Concatenated event traces of a list of steps (failing steps
contribute nothing; used to describe prefixes whose steps all
succeed). -/
def events_of_steps : List ActionStep → List Event
  | [] => []
  | st :: rest => ((execute_step st).toOption.getD []) ++ events_of_steps rest

/-- execute_actions from src/strategy_executor.rs: before each step
check the stop flag (its value at the i-th check is shouldStop i) and
return Ok(false) when set; run the step and propagate its error
immediately, with no cleanup of earlier effects.  Returns the events
issued so far together with the outcome. -/
def execute_actions_go (shouldStop : Nat → Bool) :
    Nat → List ActionStep → List Event → List Event × Except String Bool
  | _, [], acc => (acc, .ok true)
  | i, step :: rest, acc =>
    if shouldStop i then (acc, .ok false)
    else
      match execute_step step with
      | .ok evs => execute_actions_go shouldStop (i + 1) rest (acc ++ evs)
      | .error e => (acc, .error e)

/-- execute_actions entry point. -/
def execute_actions (shouldStop : Nat → Bool) (actions : List ActionStep) :
    List Event × Except String Bool :=
  execute_actions_go shouldStop 0 actions []

/-- Apply one event to the keyboard state (mouse events and sleeps do
not change key state). -/
def apply_event (s : KeyState) : Event → KeyState
  | .keyDownE vk => key_down s vk
  | .keyUpE vk => key_up s vk
  | _ => s

/-- Apply a trace of events to the keyboard state in order. -/
def apply_events (s : KeyState) (evs : List Event) : KeyState :=
  evs.foldl apply_event s

/-! ### Wave-wait loop body (src/strategy_executor.rs lines 236-259) -/

/-- Literal popup text dismissed during wave waits. -/
def popup_text : String := "返回游戏"

/-- Literal wave marker text for wave n. -/
def wave_marker (wave : Nat) : String := "波次" ++ toString wave

/-- Popup handling inside the wave-wait loop (src/strategy_executor.rs
lines 247-253, identically wait_for_wave lines 159-165): if an OCR
result contains the popup text, move to its center, sleep 200ms, left
click once, sleep 500ms; otherwise do nothing. -/
def dismiss_popup_events (results : List OcrResultItem) : List Event :=
  match find_text_contains results popup_text with
  | some r =>
    [.moveToE r.center.1 r.center.2, .sleepE 200, .leftClickE, .sleepE 500]
  | none => []

/-- One iteration of the wave-wait poll loop after its stop check: the
wait_wave movement phase runs first (its event trace is the
phase_events parameter), the screen subregion is re-OCRed (results
parameter), the popup is dismissed if present, and the loop exits when
the wave marker text is found among the results. -/
def wave_wait_iteration (phase_events : List Event) (wave : Nat)
    (results : List OcrResultItem) : List Event × Bool :=
  (phase_events ++ dismiss_popup_events results,
   (find_text_contains results (wave_marker wave)).isSome)

/-! ### Color-distance mask preprocessing (src/ocr.rs, preprocess_color_filter) -/

/-- An RGB pixel (channel values 0-255 in the source; unconstrained
Nat here, the claims fix concrete values). -/
structure Rgb where
  r : Nat
  g : Nat
  b : Nat
deriving DecidableEq

/-- An RGB image: dimensions and a pixel function. -/
structure RgbImage where
  width : Nat
  height : Nat
  pix : Nat → Nat → Rgb

/-- Squared Euclidean RGB distance of a pixel to the target color
(exact, in Rat). -/
def rgb_sq_dist (p : Rgb) (target_r target_g target_b : Nat) : Rat :=
  let dr : Rat := (p.r : Rat) - (target_r : Rat)
  let dg : Rat := (p.g : Rat) - (target_g : Rat)
  let db : Rat := (p.b : Rat) - (target_b : Rat)
  dr * dr + dg * dg + db * db

/-- Per-pixel color filter from preprocess_color_filter in src/ocr.rs:
the source computes dist = sqrt(dr*dr + dg*dg + db*db) in f64 and
tests dist <= tolerance; the embedding states the equivalent
sqrt-free condition 0 <= tolerance AND squared distance <= tolerance
squared.  Pixels within tolerance become pure white, all others pure
black. -/
def color_filter_pixel (target_r target_g target_b : Nat) (tolerance : Rat)
    (p : Rgb) : Rgb :=
  if 0 ≤ tolerance ∧ rgb_sq_dist p target_r target_g target_b ≤ tolerance * tolerance
  then ⟨255, 255, 255⟩
  else ⟨0, 0, 0⟩

/-- The mask stage of preprocess_color_filter (src/ocr.rs lines
312-326), applied pixel-wise over the image.  The subsequent CatmullRom
upscale of the mask is outside the claims and not embedded. -/
def preprocess_color_filter_mask (img : RgbImage)
    (target_r target_g target_b : Nat) (tolerance : Rat) : RgbImage :=
  { width := img.width, height := img.height,
    pix := fun x y => color_filter_pixel target_r target_g target_b tolerance (img.pix x y) }

/-! ### JSON model of the strategy file (src/strategy.rs load/save via serde_json) -/

/-- JSON values.  Numbers are embedded as Rat (serde_json prints f32
and f64 with a shortest round-tripping representation, so a number
written by save reparses to the same value). -/
inductive Json where
  | null
  | bool (b : Bool)
  | num (q : Rat)
  | str (s : String)
  | arr (elems : List Json)
  | obj (fields : List (String × Json))

/-- First binding of a field name in a JSON object (objects written by
save have distinct keys). -/
def lookup_json_field : List (String × Json) → String → Option Json
  | [], _ => none
  | (k, v) :: rest, name => if k = name then some v else lookup_json_field rest name

/-- Error-propagating bind for decoders. -/
def ebind {α β : Type} (x : Except String α) (f : α → Except String β) :
    Except String β :=
  match x with
  | .ok a => f a
  | .error e => .error e

/-- Required field: missing field is a serde error. -/
def decodeField {α : Type} (fields : List (String × Json)) (name : String)
    (dec : Json → Except String α) : Except String α :=
  match lookup_json_field fields name with
  | some j => dec j
  | none => .error ("missing field " ++ name)

/-- serde(default) field: a missing field takes the default value. -/
def decodeFieldD {α : Type} (fields : List (String × Json)) (name : String)
    (dec : Json → Except String α) (dflt : α) : Except String α :=
  match lookup_json_field fields name with
  | some j => dec j
  | none => .ok dflt

/-- Decode a JSON string. -/
def decodeString : Json → Except String String
  | .str s => .ok s
  | _ => .error "expected string"

/-- Decode a JSON bool. -/
def decodeBool : Json → Except String Bool
  | .bool b => .ok b
  | _ => .error "expected bool"

/-- Decode a float field (f32 or f64): any JSON number. -/
def decodeRat : Json → Except String Rat
  | .num q => .ok q
  | _ => .error "expected number"

/-- Decode a u32 field: an integral JSON number within u32 range. -/
def decodeU32 : Json → Except String Nat
  | .num q =>
    if q.den = 1 ∧ 0 ≤ q.num ∧ q.num ≤ (u32_max : Int) then .ok q.num.toNat
    else .error "expected u32"
  | _ => .error "expected u32"

/-- Decode an i32 field: an integral JSON number within i32 range. -/
def decodeI32 : Json → Except String Int
  | .num q =>
    if q.den = 1 ∧ -2147483648 ≤ q.num ∧ q.num ≤ 2147483647 then .ok q.num
    else .error "expected i32"
  | _ => .error "expected i32"

/-- Decode a JSON array element-wise, failing on the first element
error (serde sequence semantics). -/
def decodeListAux {α : Type} (dec : Json → Except String α) :
    List Json → Except String (List α)
  | [] => .ok []
  | j :: rest =>
    match dec j with
    | .ok a =>
      match decodeListAux dec rest with
      | .ok as => .ok (a :: as)
      | .error e => .error e
    | .error e => .error e

/-- Decode a JSON array. -/
def decodeList {α : Type} (dec : Json → Except String α) :
    Json → Except String (List α)
  | .arr es => decodeListAux dec es
  | _ => .error "expected array"

/-- Serialization of StrategyMeta (serde derive writes every field in
declaration order). -/
def encodeStrategyMeta (m : StrategyMeta) : Json :=
  .obj [("name", .str m.name), ("difficulty", .str m.difficulty),
        ("screenshot", .str m.screenshot),
        ("grid_pixel_size", .num m.grid_pixel_size),
        ("offset_x", .num m.offset_x), ("offset_y", .num m.offset_y)]

/-- Deserialization of StrategyMeta: name and difficulty required;
screenshot defaults to the empty string, grid_pixel_size to 64.0,
offset_x and offset_y to 0.0 (serde default attributes in
src/strategy.rs). -/
def decodeStrategyMeta : Json → Except String StrategyMeta
  | .obj fs =>
    ebind (decodeField fs "name" decodeString) fun name =>
    ebind (decodeField fs "difficulty" decodeString) fun difficulty =>
    ebind (decodeFieldD fs "screenshot" decodeString "") fun screenshot =>
    ebind (decodeFieldD fs "grid_pixel_size" decodeRat 64) fun grid_pixel_size =>
    ebind (decodeFieldD fs "offset_x" decodeRat 0) fun offset_x =>
    ebind (decodeFieldD fs "offset_y" decodeRat 0) fun offset_y =>
    .ok ⟨name, difficulty, screenshot, grid_pixel_size, offset_x, offset_y⟩
  | _ => .error "expected object"

/-- Serialization of Building. -/
def encodeBuilding (b : Building) : Json :=
  .obj [("id", .str b.id), ("name", .str b.name), ("trap_key", .str b.trap_key),
        ("screen_x", .num (b.screen_x : Rat)), ("screen_y", .num (b.screen_y : Rat)),
        ("grid_x", .num b.grid_x), ("grid_y", .num b.grid_y),
        ("wave", .num (b.wave : Rat)), ("is_late", .bool b.is_late)]

/-- Deserialization of Building: grid_x, grid_y default to 0.0 and
is_late to false (serde default attributes); the rest are required. -/
def decodeBuilding : Json → Except String Building
  | .obj fs =>
    ebind (decodeField fs "id" decodeString) fun id =>
    ebind (decodeField fs "name" decodeString) fun name =>
    ebind (decodeField fs "trap_key" decodeString) fun trap_key =>
    ebind (decodeField fs "screen_x" decodeI32) fun screen_x =>
    ebind (decodeField fs "screen_y" decodeI32) fun screen_y =>
    ebind (decodeFieldD fs "grid_x" decodeRat 0) fun grid_x =>
    ebind (decodeFieldD fs "grid_y" decodeRat 0) fun grid_y =>
    ebind (decodeField fs "wave" decodeU32) fun wave =>
    ebind (decodeFieldD fs "is_late" decodeBool false) fun is_late =>
    .ok ⟨id, name, trap_key, screen_x, screen_y, grid_x, grid_y, wave, is_late⟩
  | _ => .error "expected object"

/-- Serialization of UpgradeEvent. -/
def encodeUpgradeEvent (u : UpgradeEvent) : Json :=
  .obj [("building_id", .str u.building_id), ("wave", .num (u.wave : Rat)),
        ("is_late", .bool u.is_late)]

/-- Deserialization of UpgradeEvent (is_late defaults to false). -/
def decodeUpgradeEvent : Json → Except String UpgradeEvent
  | .obj fs =>
    ebind (decodeField fs "building_id" decodeString) fun building_id =>
    ebind (decodeField fs "wave" decodeU32) fun wave =>
    ebind (decodeFieldD fs "is_late" decodeBool false) fun is_late =>
    .ok ⟨building_id, wave, is_late⟩
  | _ => .error "expected object"

/-- Serialization of DemolishEvent. -/
def encodeDemolishEvent (d : DemolishEvent) : Json :=
  .obj [("building_id", .str d.building_id), ("wave", .num (d.wave : Rat)),
        ("is_late", .bool d.is_late)]

/-- Deserialization of DemolishEvent (is_late defaults to false). -/
def decodeDemolishEvent : Json → Except String DemolishEvent
  | .obj fs =>
    ebind (decodeField fs "building_id" decodeString) fun building_id =>
    ebind (decodeField fs "wave" decodeU32) fun wave =>
    ebind (decodeFieldD fs "is_late" decodeBool false) fun is_late =>
    .ok ⟨building_id, wave, is_late⟩
  | _ => .error "expected object"

/-- Serialization of ActionStep: internally tagged with "type"
(serde tag attribute in src/strategy.rs). -/
def encodeActionStep : ActionStep → Json
  | .PressKey key duration =>
    .obj [("type", .str "PressKey"), ("key", .str key), ("duration", .num duration)]
  | .TapKey key => .obj [("type", .str "TapKey"), ("key", .str key)]
  | .KeyDown key => .obj [("type", .str "KeyDown"), ("key", .str key)]
  | .KeyUp key => .obj [("type", .str "KeyUp"), ("key", .str key)]
  | .SendRelative dx dy =>
    .obj [("type", .str "SendRelative"), ("dx", .num (dx : Rat)), ("dy", .num (dy : Rat))]
  | .Sleep duration => .obj [("type", .str "Sleep"), ("duration", .num duration)]
  | .Click => .obj [("type", .str "Click")]
  | .MoveTo x y =>
    .obj [("type", .str "MoveTo"), ("x", .num (x : Rat)), ("y", .num (y : Rat))]
  | .ClickAt x y =>
    .obj [("type", .str "ClickAt"), ("x", .num (x : Rat)), ("y", .num (y : Rat))]

/-- Deserialization of ActionStep by its "type" tag. -/
def decodeActionStep : Json → Except String ActionStep
  | .obj fs =>
    ebind (decodeField fs "type" decodeString) fun tag =>
    if tag = "PressKey" then
      ebind (decodeField fs "key" decodeString) fun key =>
      ebind (decodeField fs "duration" decodeRat) fun duration =>
      .ok (.PressKey key duration)
    else if tag = "TapKey" then
      ebind (decodeField fs "key" decodeString) fun key => .ok (.TapKey key)
    else if tag = "KeyDown" then
      ebind (decodeField fs "key" decodeString) fun key => .ok (.KeyDown key)
    else if tag = "KeyUp" then
      ebind (decodeField fs "key" decodeString) fun key => .ok (.KeyUp key)
    else if tag = "SendRelative" then
      ebind (decodeField fs "dx" decodeI32) fun dx =>
      ebind (decodeField fs "dy" decodeI32) fun dy =>
      .ok (.SendRelative dx dy)
    else if tag = "Sleep" then
      ebind (decodeField fs "duration" decodeRat) fun duration =>
      .ok (.Sleep duration)
    else if tag = "Click" then .ok .Click
    else if tag = "MoveTo" then
      ebind (decodeField fs "x" decodeI32) fun x =>
      ebind (decodeField fs "y" decodeI32) fun y =>
      .ok (.MoveTo x y)
    else if tag = "ClickAt" then
      ebind (decodeField fs "x" decodeI32) fun x =>
      ebind (decodeField fs "y" decodeI32) fun y =>
      .ok (.ClickAt x y)
    else .error "unknown type tag"
  | _ => .error "expected object"

/-- Serialization of MovementPhase. -/
def encodeMovementPhase (p : MovementPhase) : Json :=
  .obj [("name", .str p.name), ("trigger", .str p.trigger),
        ("actions", .arr (p.actions.map encodeActionStep))]

/-- Deserialization of MovementPhase. -/
def decodeMovementPhase : Json → Except String MovementPhase
  | .obj fs =>
    ebind (decodeField fs "name" decodeString) fun name =>
    ebind (decodeField fs "trigger" decodeString) fun trigger =>
    ebind (decodeField fs "actions" (decodeList decodeActionStep)) fun actions =>
    .ok ⟨name, trigger, actions⟩
  | _ => .error "expected object"

/-- Serialization of Strategy: what Strategy::save writes (every
field, in declaration order). -/
def encodeStrategy (s : Strategy) : Json :=
  .obj [("meta", encodeStrategyMeta s.meta),
        ("shop_order", .arr (s.shop_order.map Json.str)),
        ("buildings", .arr (s.buildings.map encodeBuilding)),
        ("upgrades", .arr (s.upgrades.map encodeUpgradeEvent)),
        ("demolishes", .arr (s.demolishes.map encodeDemolishEvent)),
        ("movement_phases", .arr (s.movement_phases.map encodeMovementPhase))]

/-- Deserialization of Strategy: what Strategy::load reads; upgrades,
demolishes and movement_phases default to empty lists when absent. -/
def decodeStrategy : Json → Except String Strategy
  | .obj fs =>
    ebind (decodeField fs "meta" decodeStrategyMeta) fun meta =>
    ebind (decodeField fs "shop_order" (decodeList decodeString)) fun shop_order =>
    ebind (decodeField fs "buildings" (decodeList decodeBuilding)) fun buildings =>
    ebind (decodeFieldD fs "upgrades" (decodeList decodeUpgradeEvent) []) fun upgrades =>
    ebind (decodeFieldD fs "demolishes" (decodeList decodeDemolishEvent) []) fun demolishes =>
    ebind (decodeFieldD fs "movement_phases" (decodeList decodeMovementPhase) [])
      fun movement_phases =>
    .ok ⟨meta, shop_order, buildings, upgrades, demolishes, movement_phases⟩
  | _ => .error "expected object"

/-- Range invariants guaranteed by the Rust field types (u32 waves,
i32 screen coordinates): the embedding uses Nat and Int, so the
round-trip theorem carries them as an explicit hypothesis. -/
def Building.in_range (b : Building) : Prop :=
  -2147483648 ≤ b.screen_x ∧ b.screen_x ≤ 2147483647 ∧
  -2147483648 ≤ b.screen_y ∧ b.screen_y ≤ 2147483647 ∧
  b.wave ≤ u32_max

/-- Range invariants for ActionStep i32 payloads. -/
def ActionStep.in_range : ActionStep → Prop
  | .SendRelative dx dy =>
    -2147483648 ≤ dx ∧ dx ≤ 2147483647 ∧ -2147483648 ≤ dy ∧ dy ≤ 2147483647
  | .MoveTo x y =>
    -2147483648 ≤ x ∧ x ≤ 2147483647 ∧ -2147483648 ≤ y ∧ y ≤ 2147483647
  | .ClickAt x y =>
    -2147483648 ≤ x ∧ x ≤ 2147483647 ∧ -2147483648 ≤ y ∧ y ≤ 2147483647
  | _ => True

/-- Range invariants for a whole Strategy value loaded from Rust. -/
def Strategy.in_range (s : Strategy) : Prop :=
  (∀ b ∈ s.buildings, b.in_range) ∧
  (∀ u ∈ s.upgrades, u.wave ≤ u32_max) ∧
  (∀ d ∈ s.demolishes, d.wave ≤ u32_max) ∧
  (∀ p ∈ s.movement_phases, ∀ a ∈ p.actions, a.in_range)

/-! ### Concrete example values used by witnesses -/

/-- Example wave-1 early-placement building. -/
def building_early_ex : Building :=
  ⟨"b1", "trapEarly", "5", 100, 200, 0, 0, 1, false⟩

/-- Example wave-1 late-placement building. -/
def building_late_ex : Building :=
  ⟨"b2", "trapLate", "6", 300, 400, 0, 0, 1, true⟩

/-- Early building at the largest wave whose u32 sort key does not
wrap, 2^31 - 1 (key 4294967294). -/
def building_wave_max_ex : Building :=
  ⟨"bmax", "atMax", "5", 0, 0, 0, 0, 2147483647, false⟩

/-- Early building at wave 2^31, whose u32 sort key wraps to 0. -/
def building_wave_wrap_ex : Building :=
  ⟨"bwrap", "wrapped", "6", 0, 0, 0, 0, 2147483648, false⟩

/-- Example strategy with a single early wave-1 building. -/
def strategy_ex : Strategy :=
  ⟨⟨"map", "hard", "", 64, 0, 0⟩, [], [building_early_ex], [], [], []⟩

/-- Example strategy exercising every serialized field. -/
def strategy_roundtrip_ex : Strategy :=
  ⟨⟨"map", "hard", "shot.png", 64, 10, -5⟩, ["trapA", "trapB"],
   [building_early_ex, building_late_ex],
   [⟨"b1", 2, true⟩], [⟨"b2", 3, false⟩],
   [⟨"patrol", "wait_wave_2",
     [ActionStep.PressKey "W" 2, ActionStep.MoveTo 5 6, ActionStep.Click,
      ActionStep.SendRelative (-30) 0, ActionStep.Sleep 1, ActionStep.TapKey "Q",
      ActionStep.KeyDown "W", ActionStep.KeyUp "W", ActionStep.ClickAt 7 8]⟩]⟩

/-- Example OCR result carrying the popup text. -/
def popup_item_ex : OcrResultItem :=
  { text := "返回游戏", box_points := ((10, 20), (30, 20), (30, 40), (10, 40)), score := 1 }

/-- Example OCR result whose text parses to wave 2. -/
def wave_item_ex : OcrResultItem :=
  { text := "02", box_points := ((0, 0), (1, 0), (1, 1), (0, 1)), score := 1 }

/-- Example two-pixel image: pixel (0,0) is (100,100,100), pixel (1,0)
is black. -/
def mask_image_ex : RgbImage :=
  { width := 2, height := 1,
    pix := fun x _ => if x = 0 then ⟨100, 100, 100⟩ else ⟨0, 0, 0⟩ }

/-! ## Theorems -/

/-! ### Digit parsing (claims C4, C5) -/

theorem foldl_parse_digit_step_none (maxVal : Nat) (l : List Char) :
    l.foldl (parse_digit_step maxVal) none = none := by
  induction l with
  | nil => rfl
  | cons c l ih => simpa [parse_digit_step] using ih

theorem nat_of_digits_from_le (l : List Char) :
    ∀ v : Nat, v ≤ l.foldl (fun acc c => acc * 10 + digit_value c) v := by
  induction l with
  | nil => intro v; exact Nat.le_refl v
  | cons c l ih =>
    intro v
    calc v ≤ v * 10 + digit_value c := by omega
    _ ≤ _ := ih (v * 10 + digit_value c)

theorem foldl_parse_digit_step_eq (maxVal : Nat) (l : List Char) :
    ∀ v : Nat, v ≤ maxVal →
      l.foldl (parse_digit_step maxVal) (some v) =
        (if l.foldl (fun acc c => acc * 10 + digit_value c) v ≤ maxVal
         then some (l.foldl (fun acc c => acc * 10 + digit_value c) v) else none) := by
  induction l with
  | nil => intro v hv; simp [hv]
  | cons c l ih =>
    intro v hv
    by_cases h : v * 10 + digit_value c ≤ maxVal
    · simp only [List.foldl_cons, parse_digit_step, if_pos h]
      exact ih (v * 10 + digit_value c) h
    · have hgt : ¬ l.foldl (fun acc c => acc * 10 + digit_value c)
          (v * 10 + digit_value c) ≤ maxVal := by
        have := nat_of_digits_from_le l (v * 10 + digit_value c)
        omega
      simp only [List.foldl_cons, parse_digit_step, if_neg h,
        foldl_parse_digit_step_none, if_neg hgt]

theorem parse_digits_bounded_eq (maxVal : Nat) (l : List Char) :
    parse_digits_bounded maxVal l =
      (if l.isEmpty then none
       else if nat_of_digits l ≤ maxVal then some (nat_of_digits l) else none) := by
  unfold parse_digits_bounded nat_of_digits
  by_cases h : l.isEmpty
  · simp [h]
  · simp [h, foldl_parse_digit_step_eq maxVal l 0 (Nat.zero_le maxVal)]

/-- Claim C4 (corrected), counterexample to the original claim: the
string of twenty nines is composed only of ASCII digits, its
concatenated digit value is 10 to the 20th minus 1, yet parse_gold
returns None (the value overflows i64), not Some of that value as the
claim requires. -/
theorem parse_gold_overflow_counterexample :
    parse_gold "99999999999999999999" = none ∧
    (∀ c ∈ "99999999999999999999".data, c.isDigit = true) ∧
    nat_of_digits ("99999999999999999999".data.filter Char.isDigit) =
      99999999999999999999 ∧
    parse_gold "99999999999999999999" ≠ some 99999999999999999999 := by
  refine ⟨?_, ?_, ?_, ?_⟩ <;> decide

/-- Claim C4 (amended): parse_gold keeps exactly the ASCII digits of
its input; when no digit remains it returns None, and otherwise it
returns Some of the value of the concatenated digit string provided
that value fits in an i64, returning None on overflow. -/
theorem parse_gold_spec (s : String) :
    parse_gold s =
      (if (s.data.filter Char.isDigit).isEmpty then none
       else if nat_of_digits (s.data.filter Char.isDigit) ≤ i64_max
       then some (Int.ofNat (nat_of_digits (s.data.filter Char.isDigit)))
       else none) := by
  unfold parse_gold
  by_cases h : (s.data.filter Char.isDigit).isEmpty
  · simp [h]
  · simp [h, parse_digits_bounded_eq, apply_ite (Option.map Int.ofNat)]

theorem wave_store_step_cases (w : Nat) (r : OcrResultItem) :
    wave_store_step w r = w ∨ 0 < wave_store_step w r := by
  unfold wave_store_step
  cases parse_wave_number r.text with
  | none => exact Or.inl rfl
  | some wave =>
    dsimp only
    by_cases h : wave ≠ w ∧ 0 < wave
    · rw [if_pos h]
      exact Or.inr h.2
    · rw [if_neg h]
      exact Or.inl rfl

theorem foldl_wave_store_step_cases (l : List OcrResultItem) :
    ∀ w : Nat, l.foldl wave_store_step w = w ∨ 0 < l.foldl wave_store_step w := by
  induction l with
  | nil => intro w; exact Or.inl rfl
  | cons r l ih =>
    intro w
    rw [List.foldl_cons]
    rcases ih (wave_store_step w r) with h | h
    · rw [h]
      exact wave_store_step_cases w r
    · exact Or.inr h

/-- Claim C5: a step of the wave-monitor loop never changes the
published wave to 0 — after processing the OCR results of one capture
the published value either is unchanged or is positive, since a parsed
value is stored only when it is non-zero and differs from the current
value. -/
theorem wave_monitor_step_never_zero (results : List OcrResultItem) (cur : Nat) :
    wave_monitor_step results cur = cur ∨ 0 < wave_monitor_step results cur :=
  foldl_wave_store_step_cases results cur

/-! ### Building sort order (claims C2, C6) -/

theorem sortBuildings_sorted (bs : List Building) :
    List.Sorted (fun a b => a.sort_key ≤ b.sort_key) (sortBuildings bs) := by
  haveI : IsTotal Building (fun a b => a.sort_key ≤ b.sort_key) :=
    ⟨fun a b => Nat.le_total a.sort_key b.sort_key⟩
  haveI : IsTrans Building (fun a b => a.sort_key ≤ b.sort_key) :=
    ⟨fun _ _ _ => Nat.le_trans⟩
  exact List.sorted_insertionSort _ bs

theorem sortBuildings_get_lt_of_key_lt (bs : List Building)
    (i j : Fin (sortBuildings bs).length)
    (h : ((sortBuildings bs).get i).sort_key < ((sortBuildings bs).get j).sort_key) :
    (i : Nat) < (j : Nat) := by
  rcases lt_trichotomy (i : Nat) (j : Nat) with h1 | h1 | h1
  · exact h1
  · exact absurd h (by rw [Fin.ext h1]; exact lt_irrefl _)
  · have hji : j < i := h1
    have := (sortBuildings_sorted bs).rel_get_of_lt hji
    omega

theorem sortBuildings_mem (bs : List Building) (b : Building) :
    b ∈ sortBuildings bs ↔ b ∈ bs := by
  unfold sortBuildings
  exact List.mem_insertionSort _

/-- Claim C2 (corrected), counterexample to the original claim: with
u32 arithmetic the key of an early wave-2^31 building wraps to 0, so
the sort places it before the early wave-(2^31 - 1) building whose key
is 4294967294; the original claim demands every wave-2147483647
building strictly before every wave-2147483648 building, which fails
on this two-building list. -/
theorem building_sort_order_counterexample :
    ¬ (∀ i j : Fin (sortBuildings [building_wave_max_ex, building_wave_wrap_ex]).length,
        ((sortBuildings [building_wave_max_ex, building_wave_wrap_ex]).get i).wave
            = 2147483647 →
        ((sortBuildings [building_wave_max_ex, building_wave_wrap_ex]).get j).wave
            = 2147483647 + 1 →
        (i : Nat) < (j : Nat)) := by decide

/-- Claim C2 (amended): for every list of buildings whose waves are at
most 2^31 - 1 — the range where the u32 key wave * 2 + is_late cannot
wrap — sorting by sort_key puts every wave-W early-placement building
strictly before every wave-W late-placement building, and every wave-W
building strictly before every wave-(W+1) building, for every W. -/
theorem building_sort_order (bs : List Building)
    (hW : ∀ b ∈ bs, b.wave ≤ 2147483647) (W : Nat) :
    (∀ i j : Fin (sortBuildings bs).length,
      ((sortBuildings bs).get i).wave = W → ((sortBuildings bs).get i).is_late = false →
      ((sortBuildings bs).get j).wave = W → ((sortBuildings bs).get j).is_late = true →
      (i : Nat) < (j : Nat)) ∧
    (∀ i j : Fin (sortBuildings bs).length,
      ((sortBuildings bs).get i).wave = W → ((sortBuildings bs).get j).wave = W + 1 →
      (i : Nat) < (j : Nat)) := by
  constructor
  · intro i j hiw hil hjw hjl
    have hWi : ((sortBuildings bs).get i).wave ≤ 2147483647 :=
      hW _ ((sortBuildings_mem bs _).mp (List.get_mem _ i.1 i.2))
    rw [hiw] at hWi
    apply sortBuildings_get_lt_of_key_lt
    unfold Building.sort_key
    rw [hiw, hil, hjw, hjl]
    show (W * 2 + 0) % 4294967296 < (W * 2 + 1) % 4294967296
    omega
  · intro i j hiw hjw
    have hWi : ((sortBuildings bs).get i).wave ≤ 2147483647 :=
      hW _ ((sortBuildings_mem bs _).mp (List.get_mem _ i.1 i.2))
    have hWj : ((sortBuildings bs).get j).wave ≤ 2147483647 :=
      hW _ ((sortBuildings_mem bs _).mp (List.get_mem _ j.1 j.2))
    rw [hiw] at hWi
    rw [hjw] at hWj
    apply sortBuildings_get_lt_of_key_lt
    unfold Building.sort_key
    rw [hiw, hjw]
    split <;> split <;> omega

/-- Witness for claim C2 (amended) at a concrete two-building wave-1
list: the early wave-1 building ends up strictly before the late
wave-1 building. -/
theorem building_sort_order_witness :
    ((⟨0, by decide⟩ : Fin (sortBuildings [building_late_ex, building_early_ex]).length) : Nat) <
      ((⟨1, by decide⟩ : Fin (sortBuildings [building_late_ex, building_early_ex]).length) : Nat) :=
  (building_sort_order [building_late_ex, building_early_ex] (by decide) 1).1
    ⟨0, by decide⟩ ⟨1, by decide⟩ (by decide) (by decide) (by decide) (by decide)

/-- Claim C6: after the placement loop the executor presses the
wave-start key exactly when some building is an early (non-late)
wave-1 building and no building at all is a late-placement one. -/
theorem run_strategy_wave_start_iff (s : Strategy) :
    run_strategy_wave_start s = true ↔
      ((∃ b ∈ s.buildings, b.wave = 1 ∧ b.is_late = false) ∧
        ∀ b ∈ s.buildings, b.is_late = false) := by
  unfold run_strategy_wave_start wave_start_after_placement sortBuildings
  simp [List.any_eq_true, List.mem_insertionSort, Bool.and_eq_true, Bool.not_eq_true',
    List.any_eq_false, beq_iff_eq]

/-- Witness for claim C6: a strategy with one early wave-1 building
and no late buildings presses the wave-start key. -/
theorem run_strategy_wave_start_iff_witness :
    run_strategy_wave_start strategy_ex = true :=
  (run_strategy_wave_start_iff strategy_ex).mpr
    ⟨⟨building_early_ex, by decide, rfl, rfl⟩, by decide⟩

/-! ### Key-sequence release guarantee (claim C3) -/

theorem key_action_step_held_mem (vk : Nat) (p : KeyState × List Nat) (a : KeyAction)
    (hp : vk ∈ p.2) (ha : a ≠ KeyAction.Release vk) :
    vk ∈ (key_action_step p a).2 := by
  obtain ⟨s, held⟩ := p
  cases a with
  | Hold vk2 dur =>
    by_cases h : dur = 0 <;> simp only [key_action_step, h, if_pos, if_neg, ite_true, ite_false]
    · exact List.mem_append_left _ hp
    · simpa [key_action_step, h] using hp
  | Tap vk2 count => simpa [key_action_step] using hp
  | Release vk2 =>
    have hne : vk ≠ vk2 := fun h => ha (by rw [h])
    simp only [key_action_step, List.mem_filter]
    exact ⟨hp, by simpa using hne⟩

theorem foldl_key_action_step_held (l : List KeyAction) (vk : Nat) :
    ∀ p : KeyState × List Nat, vk ∈ p.2 → KeyAction.Release vk ∉ l →
      vk ∈ (l.foldl key_action_step p).2 := by
  induction l with
  | nil => intro p hp _; exact hp
  | cons a l ih =>
    intro p hp hnr
    rw [List.foldl_cons]
    refine ih (key_action_step p a) ?_ (fun h => hnr (List.mem_cons_of_mem a h))
    exact key_action_step_held_mem vk p a hp
      (fun h => hnr (h ▸ List.mem_cons_self a l))

theorem foldl_key_up_of_false (l : List Nat) :
    ∀ (s : KeyState) (vk : Nat), s vk = false → l.foldl key_up s vk = false := by
  induction l with
  | nil => intro s vk h; exact h
  | cons a l ih =>
    intro s vk h
    rw [List.foldl_cons]
    refine ih (key_up s a) vk ?_
    unfold key_up
    by_cases hva : vk = a <;> simp [hva, h]

theorem foldl_key_up_of_mem (l : List Nat) :
    ∀ (s : KeyState) (vk : Nat), vk ∈ l → l.foldl key_up s vk = false := by
  induction l with
  | nil => intro s vk h; cases h
  | cons a l ih =>
    intro s vk h
    rw [List.foldl_cons]
    by_cases hva : vk = a
    · refine foldl_key_up_of_false l (key_up s a) vk ?_
      unfold key_up
      simp [hva]
    · exact ih (key_up s a) vk (by
        rcases List.mem_cons.mp h with h1 | h1
        · exact absurd h1 hva
        · exact h1)

/-- Claim C3: for any action list given to press_key_sequence, every
key put into an indefinite hold by a Hold(key, 0) action and not
released by a later Release(key) action ends up released (its final
state is up) after the sequence returns, thanks to the held_keys
cleanup loop. -/
theorem press_key_sequence_releases_held (actions : List KeyAction) (s : KeyState)
    (vk : Nat)
    (h : ∃ l₁ l₂, actions = l₁ ++ KeyAction.Hold vk 0 :: l₂ ∧
      KeyAction.Release vk ∉ l₂) :
    press_key_sequence actions s vk = false := by
  obtain ⟨l₁, l₂, rfl, hnr⟩ := h
  unfold press_key_sequence
  rw [List.foldl_append, List.foldl_cons]
  have hmem : vk ∈ (key_action_step (l₁.foldl key_action_step (s, [])) (KeyAction.Hold vk 0)).2 := by
    obtain ⟨s1, held⟩ := l₁.foldl key_action_step (s, [])
    simp [key_action_step]
  have hfin := foldl_key_action_step_held l₂ vk _ hmem hnr
  exact foldl_key_up_of_mem _ _ _ hfin

/-- Witness for claim C3: a sequence holding key 0x41 indefinitely
with no later release, started from an all-down keyboard state, ends
with key 0x41 up. -/
theorem press_key_sequence_releases_held_witness :
    press_key_sequence [KeyAction.Hold 65 0] (fun _ => true) 65 = false :=
  press_key_sequence_releases_held [KeyAction.Hold 65 0] (fun _ => true) 65
    ⟨[], [], rfl, by decide⟩

/-! ### Frame cache (claim C1) -/

theorem should_skip_frame_iff {Img : Type} (computeHash : Img → Nat) (img : Img)
    (cache : FrameCache) :
    should_skip_frame computeHash img cache = true ↔
      (cache.hash = some (computeHash img) ∧ cache.result.isSome = true) := by
  unfold should_skip_frame
  cases h : cache.hash with
  | none => simp [h]
  | some prev => simp [h, Bool.and_eq_true, beq_iff_eq]

theorem ocr_image_hit {Img : Type} (computeHash : Img → Nat)
    (engine : Img → List OcrResultItem) (img : Img) (cache : FrameCache)
    (h : should_skip_frame computeHash img cache = true) :
    ocr_image computeHash engine img true cache =
      { result := (get_cached_result cache).getD [], cache := cache,
        invoked := false } := by
  unfold ocr_image
  rw [h]
  simp

theorem ocr_image_miss {Img : Type} (computeHash : Img → Nat)
    (engine : Img → List OcrResultItem) (img : Img) (cache : FrameCache)
    (h : should_skip_frame computeHash img cache = false) :
    ocr_image computeHash engine img true cache =
      { result := engine img,
        cache := update_frame_cache computeHash img (engine img),
        invoked := true } := by
  unfold ocr_image
  rw [h]
  simp

theorem ocr_image_cache_after {Img : Type} (computeHash : Img → Nat)
    (engine : Img → List OcrResultItem) (img : Img) (cache : FrameCache) :
    (ocr_image computeHash engine img true cache).cache.hash
        = some (computeHash img) ∧
    (ocr_image computeHash engine img true cache).cache.result
        = some (ocr_image computeHash engine img true cache).result := by
  by_cases h : should_skip_frame computeHash img cache
  · obtain ⟨hh, hr⟩ := (should_skip_frame_iff computeHash img cache).mp h
    obtain ⟨res, hres⟩ := Option.isSome_iff_exists.mp hr
    rw [ocr_image_hit computeHash engine img cache h]
    simp [get_cached_result, hh, hres]
  · rw [ocr_image_miss computeHash engine img cache (Bool.not_eq_true _ ▸ h)]
    simp [update_frame_cache]

/-- Claim C1: with use_frame_skip enabled, a second ocr_image call on
a frame with the same downsampled hash returns the first call's result
list without invoking the model; with a differing hash the cache is
bypassed and the model is invoked; and a cache hit requires the stored
hash to equal the incoming hash AND a stored result to exist. -/
theorem ocr_image_frame_cache_correct {Img : Type} (computeHash : Img → Nat)
    (engine : Img → List OcrResultItem) (img1 img2 : Img) (cache0 : FrameCache) :
    ((ocr_image computeHash engine img2 true
        (ocr_image computeHash engine img1 true cache0).cache).invoked
      = !(computeHash img2 == computeHash img1)) ∧
    (computeHash img2 = computeHash img1 →
      (ocr_image computeHash engine img2 true
          (ocr_image computeHash engine img1 true cache0).cache).result
        = (ocr_image computeHash engine img1 true cache0).result) ∧
    (∀ (img : Img) (cache : FrameCache),
      should_skip_frame computeHash img cache = true ↔
        (cache.hash = some (computeHash img) ∧ cache.result.isSome = true)) := by
  obtain ⟨hh, hr⟩ := ocr_image_cache_after computeHash engine img1 cache0
  by_cases heq : computeHash img2 = computeHash img1
  · have hskip : should_skip_frame computeHash img2
        (ocr_image computeHash engine img1 true cache0).cache = true := by
      rw [should_skip_frame_iff]
      exact ⟨by rw [hh, heq], by rw [hr]; rfl⟩
    rw [ocr_image_hit computeHash engine img2 _ hskip]
    refine ⟨by simp [heq], fun _ => ?_, should_skip_frame_iff computeHash⟩
    simp [get_cached_result, hr]
  · have hskip : should_skip_frame computeHash img2
        (ocr_image computeHash engine img1 true cache0).cache = false := by
      apply Bool.eq_false_iff.mpr
      intro hc
      have h1 := ((should_skip_frame_iff computeHash img2 _).mp hc).1
      rw [hh] at h1
      exact heq (Option.some_inj.mp h1).symm
    rw [ocr_image_miss computeHash engine img2 _ hskip]
    exact ⟨by simp [heq], fun h => absurd h heq, should_skip_frame_iff computeHash⟩

/-- Witness for claim C1: with the identity hash over Nat frames and a
constant engine, a repeated frame returns the cached result list. -/
theorem ocr_image_frame_cache_correct_witness :
    (ocr_image (fun n : Nat => n) (fun _ => []) 0 true
        (ocr_image (fun n : Nat => n) (fun _ => []) 0 true ⟨none, none⟩).cache).result
      = (ocr_image (fun n : Nat => n) (fun _ => []) 0 true ⟨none, none⟩).result :=
  (ocr_image_frame_cache_correct (fun n : Nat => n) (fun _ => []) 0 0 ⟨none, none⟩).2.1 rfl

/-! ### Wave-wait popup dismissal (claim C7) -/

/-- Claim C7 (corrected), counterexample to the original claim: at a
concrete OCR result list containing the popup text, the dismissal
segment of the wave-wait iteration issues exactly one left click, not
the three clicks (triple-click) the claim requires. -/
theorem wave_wait_single_click_counterexample :
    (wave_wait_iteration [] 1 [popup_item_ex]).1.count Event.leftClickE = 1 ∧
    (wave_wait_iteration [] 1 [popup_item_ex]).1.count Event.leftClickE ≠ 3 := by
  refine ⟨?_, ?_⟩ <;> decide

/-- Claim C7 (amended): in each wave-wait iteration, after the
wait_wave phase and the re-OCR, a found "return to game" popup is
dismissed by moving the cursor to its center and issuing a single
left click (with settle sleeps), and the iteration still checks for
the wave marker text afterwards. -/
theorem wave_wait_iteration_dismiss (phase_events : List Event) (wave : Nat)
    (results : List OcrResultItem) (r : OcrResultItem)
    (h : find_text_contains results popup_text = some r) :
    wave_wait_iteration phase_events wave results =
      (phase_events ++
        [Event.moveToE r.center.1 r.center.2, Event.sleepE 200,
         Event.leftClickE, Event.sleepE 500],
       (find_text_contains results (wave_marker wave)).isSome) := by
  unfold wave_wait_iteration dismiss_popup_events
  rw [h]

/-- Witness for claim C7 (amended) at a concrete result list holding
only the popup item. -/
theorem wave_wait_iteration_dismiss_witness :
    wave_wait_iteration [] 1 [popup_item_ex] =
      ([Event.moveToE 20 30, Event.sleepE 200, Event.leftClickE, Event.sleepE 500],
       false) := by
  rw [wave_wait_iteration_dismiss [] 1 [popup_item_ex] popup_item_ex (by decide)]
  decide

/-! ### Color-distance mask (claim C9) -/

/-- Claim C9: for every pixel of the input image, the color-distance
mask is pure white when the pixel is within tolerance of the target
color in Euclidean RGB distance (stated squared: squared distance at
most tolerance squared, in particular when the pixel exactly equals
the target) and pure black when it is beyond the tolerance. -/
theorem color_filter_mask_correct (img : RgbImage) (tr tg tb : Nat) (tol : Rat)
    (htol : 0 ≤ tol) (x y : Nat) :
    (img.pix x y = ⟨tr, tg, tb⟩ →
      (preprocess_color_filter_mask img tr tg tb tol).pix x y = ⟨255, 255, 255⟩) ∧
    (tol * tol < rgb_sq_dist (img.pix x y) tr tg tb →
      (preprocess_color_filter_mask img tr tg tb tol).pix x y = ⟨0, 0, 0⟩) ∧
    (rgb_sq_dist (img.pix x y) tr tg tb ≤ tol * tol →
      (preprocess_color_filter_mask img tr tg tb tol).pix x y = ⟨255, 255, 255⟩) := by
  unfold preprocess_color_filter_mask color_filter_pixel
  dsimp only
  refine ⟨fun h => ?_, fun h => ?_, fun h => ?_⟩
  · rw [if_pos]
    refine ⟨htol, ?_⟩
    rw [h]
    unfold rgb_sq_dist
    simp
    positivity
  · rw [if_neg]
    intro hc
    exact absurd hc.2 (not_le.mpr h)
  · rw [if_pos ⟨htol, h⟩]

/-- Witness for claim C9 on the two-pixel example image with target
(100,100,100) and tolerance 35: the matching pixel maps to white, the
black pixel (distance squared 30000 beyond 1225) maps to black. -/
theorem color_filter_mask_correct_witness :
    (preprocess_color_filter_mask mask_image_ex 100 100 100 35).pix 0 0
        = ⟨255, 255, 255⟩ ∧
    (preprocess_color_filter_mask mask_image_ex 100 100 100 35).pix 1 0
        = ⟨0, 0, 0⟩ :=
  ⟨(color_filter_mask_correct mask_image_ex 100 100 100 35 (by norm_num) 0 0).1 rfl,
   (color_filter_mask_correct mask_image_ex 100 100 100 35 (by norm_num) 1 0).2.1
     (by norm_num [rgb_sq_dist, mask_image_ex])⟩

/-! ### Error propagation in execute_actions (claim C10) -/

theorem execute_actions_go_append (pre : List ActionStep)
    (hpre : ∀ st ∈ pre, (execute_step st).isOk = true) :
    ∀ (i : Nat) (acc : List Event) (tail : List ActionStep),
      execute_actions_go (fun _ => false) i (pre ++ tail) acc =
        execute_actions_go (fun _ => false) (i + pre.length) tail
          (acc ++ events_of_steps pre) := by
  induction pre with
  | nil =>
    intro i acc tail
    simp [events_of_steps]
  | cons st pre ih =>
    intro i acc tail
    have hst : (execute_step st).isOk = true := hpre st (List.mem_cons_self st pre)
    obtain ⟨evs, hevs⟩ : ∃ evs, execute_step st = Except.ok evs := by
      cases h : execute_step st with
      | ok evs => exact ⟨evs, rfl⟩
      | error e => rw [h] at hst; exact absurd hst (by simp [Except.isOk, Except.toBool])
    have ihp : ∀ st2 ∈ pre, (execute_step st2).isOk = true :=
      fun st2 hm => hpre st2 (List.mem_cons_of_mem st hm)
    rw [List.cons_append]
    simp only [execute_actions_go, hevs, Bool.false_eq_true, if_false]
    rw [ih ihp (i + 1) (acc ++ evs) tail]
    have harith : i + 1 + pre.length = i + (st :: pre).length := by
      simp only [List.length_cons]
      omega
    have hacc : (acc ++ evs) ++ events_of_steps pre
        = acc ++ events_of_steps (st :: pre) := by
      simp [events_of_steps, hevs, Except.toOption]
    rw [harith, hacc]

theorem execute_actions_error_eq (pre rest : List ActionStep) (bad : ActionStep)
    (msg : String)
    (hpre : ∀ st ∈ pre, (execute_step st).isOk = true)
    (hbad : execute_step bad = Except.error msg) :
    execute_actions (fun _ => false) (pre ++ bad :: rest) =
      (events_of_steps pre, Except.error msg) := by
  unfold execute_actions
  rw [execute_actions_go_append pre hpre 0 [] (bad :: rest)]
  simp only [execute_actions_go, hbad, Bool.false_eq_true, if_false, List.nil_append]

/-- Claim C10: when execute_actions hits a step whose key name cannot
be resolved, it returns the error immediately; the events of all
earlier steps have already been issued and no cleanup events are
appended, so in particular every key left down by the earlier steps is
still down after the call returns. -/
theorem execute_actions_error_preserves_effects (pre rest : List ActionStep)
    (bad : ActionStep) (msg : String) (s : KeyState)
    (hpre : ∀ st ∈ pre, (execute_step st).isOk = true)
    (hbad : execute_step bad = Except.error msg) :
    (execute_actions (fun _ => false) (pre ++ bad :: rest)).2 = Except.error msg ∧
    (execute_actions (fun _ => false) (pre ++ bad :: rest)).1 = events_of_steps pre ∧
    (∀ vk : Nat, apply_events s (events_of_steps pre) vk = true →
      apply_events s (execute_actions (fun _ => false) (pre ++ bad :: rest)).1 vk
        = true) := by
  rw [execute_actions_error_eq pre rest bad msg hpre hbad]
  exact ⟨rfl, rfl, fun vk h => h⟩

/-- Witness for claim C10: key A is pressed down, then a step naming
the unresolvable key "!" fails; the call returns the error and key
0x41 is still down. -/
theorem execute_actions_error_preserves_effects_witness :
    (execute_actions (fun _ => false)
        [ActionStep.KeyDown "A", ActionStep.TapKey "!"]).2
      = Except.error ("unknown key: " ++ "!") ∧
    apply_events (fun _ => false)
        (execute_actions (fun _ => false)
          [ActionStep.KeyDown "A", ActionStep.TapKey "!"]).1 65
      = true := by
  have h := execute_actions_error_preserves_effects [ActionStep.KeyDown "A"] []
    (ActionStep.TapKey "!") ("unknown key: " ++ "!") (fun _ => false)
    (by decide) (by rfl)
  exact ⟨h.1, h.2.2 65 (by decide)⟩

/-! ### Strategy file round trip (claim C8) -/

theorem decodeU32_num (w : Nat) (hw : w ≤ u32_max) :
    decodeU32 (Json.num (w : Rat)) = Except.ok w := by
  simp only [decodeU32, Rat.num_natCast, Rat.den_natCast]
  rw [if_pos ⟨trivial, Int.natCast_nonneg w, by exact_mod_cast hw⟩]
  simp

theorem decodeI32_num (x : Int) (h1 : -2147483648 ≤ x) (h2 : x ≤ 2147483647) :
    decodeI32 (Json.num (x : Rat)) = Except.ok x := by
  simp only [decodeI32, Rat.num_intCast, Rat.den_intCast]
  rw [if_pos ⟨trivial, h1, h2⟩]

theorem decodeListAux_map {α : Type} (dec : Json → Except String α) (enc : α → Json)
    (l : List α) (h : ∀ a ∈ l, dec (enc a) = Except.ok a) :
    decodeListAux dec (l.map enc) = Except.ok l := by
  induction l with
  | nil => rfl
  | cons a l ih =>
    rw [List.map_cons]
    simp only [decodeListAux, h a (List.mem_cons_self a l),
      ih (fun x hx => h x (List.mem_cons_of_mem a hx))]

theorem decodeStrategyMeta_encode (m : StrategyMeta) :
    decodeStrategyMeta (encodeStrategyMeta m) = Except.ok m := by
  simp [decodeStrategyMeta, encodeStrategyMeta, decodeField, decodeFieldD,
    lookup_json_field, ebind, decodeString, decodeRat]

theorem decodeBuilding_encode (b : Building) (hb : b.in_range) :
    decodeBuilding (encodeBuilding b) = Except.ok b := by
  obtain ⟨h1, h2, h3, h4, h5⟩ := hb
  simp [decodeBuilding, encodeBuilding, decodeField, decodeFieldD, lookup_json_field,
    ebind, decodeString, decodeRat, decodeBool, decodeU32_num b.wave h5,
    decodeI32_num b.screen_x h1 h2, decodeI32_num b.screen_y h3 h4]

theorem decodeUpgradeEvent_encode (u : UpgradeEvent) (hu : u.wave ≤ u32_max) :
    decodeUpgradeEvent (encodeUpgradeEvent u) = Except.ok u := by
  simp [decodeUpgradeEvent, encodeUpgradeEvent, decodeField, decodeFieldD,
    lookup_json_field, ebind, decodeString, decodeBool, decodeU32_num u.wave hu]

theorem decodeDemolishEvent_encode (d : DemolishEvent) (hd : d.wave ≤ u32_max) :
    decodeDemolishEvent (encodeDemolishEvent d) = Except.ok d := by
  simp [decodeDemolishEvent, encodeDemolishEvent, decodeField, decodeFieldD,
    lookup_json_field, ebind, decodeString, decodeBool, decodeU32_num d.wave hd]

theorem decodeActionStep_encode (a : ActionStep) (ha : a.in_range) :
    decodeActionStep (encodeActionStep a) = Except.ok a := by
  cases a with
  | PressKey key duration =>
    simp [decodeActionStep, encodeActionStep, decodeField, lookup_json_field, ebind,
      decodeString, decodeRat]
  | TapKey key =>
    simp [decodeActionStep, encodeActionStep, decodeField, lookup_json_field, ebind,
      decodeString]
  | KeyDown key =>
    simp [decodeActionStep, encodeActionStep, decodeField, lookup_json_field, ebind,
      decodeString]
  | KeyUp key =>
    simp [decodeActionStep, encodeActionStep, decodeField, lookup_json_field, ebind,
      decodeString]
  | SendRelative dx dy =>
    obtain ⟨h1, h2, h3, h4⟩ := ha
    simp [decodeActionStep, encodeActionStep, decodeField, lookup_json_field, ebind,
      decodeString, decodeI32_num dx h1 h2, decodeI32_num dy h3 h4]
  | Sleep duration =>
    simp [decodeActionStep, encodeActionStep, decodeField, lookup_json_field, ebind,
      decodeString, decodeRat]
  | Click =>
    simp [decodeActionStep, encodeActionStep, decodeField, lookup_json_field, ebind,
      decodeString]
  | MoveTo x y =>
    obtain ⟨h1, h2, h3, h4⟩ := ha
    simp [decodeActionStep, encodeActionStep, decodeField, lookup_json_field, ebind,
      decodeString, decodeI32_num x h1 h2, decodeI32_num y h3 h4]
  | ClickAt x y =>
    obtain ⟨h1, h2, h3, h4⟩ := ha
    simp [decodeActionStep, encodeActionStep, decodeField, lookup_json_field, ebind,
      decodeString, decodeI32_num x h1 h2, decodeI32_num y h3 h4]

theorem decodeMovementPhase_encode (p : MovementPhase)
    (hp : ∀ a ∈ p.actions, a.in_range) :
    decodeMovementPhase (encodeMovementPhase p) = Except.ok p := by
  have ha : decodeListAux decodeActionStep (p.actions.map encodeActionStep)
      = Except.ok p.actions :=
    decodeListAux_map _ _ _ (fun a hm => decodeActionStep_encode a (hp a hm))
  simp [decodeMovementPhase, encodeMovementPhase, decodeField, decodeFieldD,
    lookup_json_field, ebind, decodeString, decodeList, ha]

theorem decodeStrategy_encode (s : Strategy) (hs : s.in_range) :
    decodeStrategy (encodeStrategy s) = Except.ok s := by
  obtain ⟨hb, hu, hd, hp⟩ := hs
  have hso : decodeListAux decodeString (s.shop_order.map Json.str)
      = Except.ok s.shop_order :=
    decodeListAux_map _ _ _ (fun x _ => rfl)
  have hbl : decodeListAux decodeBuilding (s.buildings.map encodeBuilding)
      = Except.ok s.buildings :=
    decodeListAux_map _ _ _ (fun b hm => decodeBuilding_encode b (hb b hm))
  have hul : decodeListAux decodeUpgradeEvent (s.upgrades.map encodeUpgradeEvent)
      = Except.ok s.upgrades :=
    decodeListAux_map _ _ _ (fun u hm => decodeUpgradeEvent_encode u (hu u hm))
  have hdl : decodeListAux decodeDemolishEvent (s.demolishes.map encodeDemolishEvent)
      = Except.ok s.demolishes :=
    decodeListAux_map _ _ _ (fun d hm => decodeDemolishEvent_encode d (hd d hm))
  have hpl : decodeListAux decodeMovementPhase
      (s.movement_phases.map encodeMovementPhase) = Except.ok s.movement_phases :=
    decodeListAux_map _ _ _ (fun p hm => decodeMovementPhase_encode p (hp p hm))
  simp [decodeStrategy, encodeStrategy, decodeField, decodeFieldD, lookup_json_field,
    ebind, decodeList, decodeStrategyMeta_encode, hso, hbl, hul, hdl, hpl]

theorem decodeStrategy_defaults (nm df : String) :
    decodeStrategy (Json.obj
        [("meta", Json.obj [("name", Json.str nm), ("difficulty", Json.str df)]),
         ("shop_order", Json.arr []), ("buildings", Json.arr [])]) =
      Except.ok ⟨⟨nm, df, "", 64, 0, 0⟩, [], [], [], [], []⟩ := by
  simp [decodeStrategy, decodeStrategyMeta, decodeField, decodeFieldD,
    lookup_json_field, ebind, decodeString, decodeRat, decodeList, decodeListAux]

/-- Claim C8: for every in-memory Strategy within the ranges its Rust
field types impose, serializing (save) and deserializing (load) yields
a field-for-field equal Strategy — so load, save, load gives the same
structure as the first load — and a file lacking the optional fields
loads with the documented defaults (grid_pixel_size 64.0, offsets 0.0,
screenshot empty, upgrades/demolishes/movement_phases empty), defaults
that the round trip preserves. -/
theorem strategy_round_trip (s : Strategy) (hs : s.in_range) (nm df : String) :
    decodeStrategy (encodeStrategy s) = Except.ok s ∧
    decodeStrategy (Json.obj
        [("meta", Json.obj [("name", Json.str nm), ("difficulty", Json.str df)]),
         ("shop_order", Json.arr []), ("buildings", Json.arr [])]) =
      Except.ok ⟨⟨nm, df, "", 64, 0, 0⟩, [], [], [], [], []⟩ :=
  ⟨decodeStrategy_encode s hs, decodeStrategy_defaults nm df⟩

/-- Witness for claim C8 on a strategy exercising every field and
every ActionStep variant. -/
theorem strategy_round_trip_witness :
    decodeStrategy (encodeStrategy strategy_roundtrip_ex)
        = Except.ok strategy_roundtrip_ex ∧
    decodeStrategy (Json.obj
        [("meta", Json.obj [("name", Json.str "m"), ("difficulty", Json.str "d")]),
         ("shop_order", Json.arr []), ("buildings", Json.arr [])]) =
      Except.ok ⟨⟨"m", "d", "", 64, 0, 0⟩, [], [], [], [], []⟩ :=
  strategy_round_trip strategy_roundtrip_ex
    (by
      refine ⟨?_, ?_, ?_, ?_⟩ <;>
        simp [strategy_roundtrip_ex, Building.in_range, ActionStep.in_range,
          building_early_ex, building_late_ex, u32_max])
    "m" "d"

end Nzwl
